import Mathlib

/-!
Verification of the section-scoped document patcher of the `urdekcah` repository.

Documents are modelled as lists of characters (`Str`).  The Rust code slices
by byte offsets of ASCII marker strings; since every offset used is obtained
from a `find` of a marker and every slice runs between two such offsets, the
character-level model is observationally equivalent for the properties below.
-/

abbrev Str := List Char

/-- Whitespace test used by Rust `str::trim` (ASCII relevant subset; the
source trims Unicode whitespace, of which only these occur in the claims). -/
def isWsChar (c : Char) : Bool := c = ' ' || c = '\t' || c = '\n' || c = '\r'

/-- Rust `str::trim_start`. -/
def trimStart (s : Str) : Str := s.dropWhile isWsChar

/-- Rust `str::trim_end`. -/
def trimEnd (s : Str) : Str := (s.reverse.dropWhile isWsChar).reverse

/-- Rust `str::trim`. -/
def trim (s : Str) : Str := trimEnd (trimStart s)

/-- Index of the first occurrence of `pat` in `s` (Rust `str::find`). -/
def findSub (pat : Str) : Str → Option Nat
  | [] => if pat.isPrefixOf [] then some 0 else none
  | c :: t => if pat.isPrefixOf (c :: t) then some 0 else (findSub pat t).map (· + 1)

/-- Rust `str::contains`. -/
def containsSub (pat s : Str) : Bool := (findSub pat s).isSome

/-- Pattern `pat` occurs in `s` starting at index `i`. -/
def OccursAt (pat s : Str) (i : Nat) : Prop := pat <+: s.drop i

instance (pat s : Str) (i : Nat) : Decidable (OccursAt pat s i) := by
  unfold OccursAt; infer_instance

/-- Bridge `List.isPrefixOf` (Bool) to the `<+:` order. -/
theorem isPrefixOf_iff {l₁ l₂ : Str} : l₁.isPrefixOf l₂ = true ↔ l₁ <+: l₂ := by
  exact List.isPrefixOf_iff_prefix

/-- Rust `as usize` cast applied to a non-NaN float: truncation toward zero,
saturating at `0` for negative values.  On non-negatives truncation equals
flooring, and every negative result saturates to `0`, so `Int.toNat ∘ floor`
is exactly the cast's behaviour on all rationals. -/
def rustAsUsize (q : ℚ) : ℕ := (⌊q⌋).toNat

section FindSubTheory

theorem occursAt_iff_take (pat s : Str) (i : Nat) :
    OccursAt pat s i ↔ (s.drop i).take pat.length = pat := by
  unfold OccursAt
  constructor
  · intro h
    exact (List.prefix_iff_eq_take.mp h).symm
  · intro h
    exact List.prefix_iff_eq_take.mpr h.symm

theorem occursAt_zero_iff {pat s : Str} : OccursAt pat s 0 ↔ pat <+: s := by
  simp [OccursAt]

theorem occursAt_cons_succ {pat : Str} {c : Char} {t : Str} {j : Nat} :
    OccursAt pat (c :: t) (j + 1) ↔ OccursAt pat t j := by
  simp [OccursAt]

/-- The index `findSub` returns is the first occurrence. -/
theorem findSub_eq_some_iff {pat s : Str} {i : Nat} :
    findSub pat s = some i ↔
      OccursAt pat s i ∧ ∀ j < i, ¬ OccursAt pat s j := by
  induction s generalizing i with
  | nil =>
    show (if pat.isPrefixOf [] then some 0 else none) = some i ↔ _
    by_cases hp : pat.isPrefixOf ([] : Str)
    · rw [if_pos hp]
      have hocc0 : OccursAt pat [] 0 :=
        occursAt_zero_iff.mpr (isPrefixOf_iff.mp hp)
      constructor
      · intro h
        injection h with h
        subst h
        exact ⟨hocc0, by omega⟩
      · rintro ⟨hocc, hmin⟩
        rcases Nat.eq_zero_or_pos i with rfl | hpos
        · rfl
        · exact absurd hocc0 (hmin 0 hpos)
    · rw [if_neg hp]
      constructor
      · intro h
        exact Option.noConfusion h
      · rintro ⟨hocc, -⟩
        exfalso
        apply hp
        apply isPrefixOf_iff.mpr
        simpa [OccursAt] using hocc
  | cons c t ih =>
    show (if pat.isPrefixOf (c :: t) then some 0 else (findSub pat t).map (· + 1)) = some i ↔ _
    by_cases hp : pat.isPrefixOf (c :: t)
    · rw [if_pos hp]
      have hocc0 : OccursAt pat (c :: t) 0 :=
        occursAt_zero_iff.mpr (isPrefixOf_iff.mp hp)
      constructor
      · intro h
        injection h with h
        subst h
        exact ⟨hocc0, by omega⟩
      · rintro ⟨hocc, hmin⟩
        rcases Nat.eq_zero_or_pos i with rfl | hpos
        · rfl
        · exact absurd hocc0 (hmin 0 hpos)
    · rw [if_neg hp]
      match i with
      | 0 =>
        simp only [Option.map_eq_some', reduceCtorEq, and_false, exists_false, false_iff,
          not_and, not_forall]
        intro hocc
        exact absurd (isPrefixOf_iff.mpr (occursAt_zero_iff.mp hocc)) hp
      | i + 1 =>
        constructor
        · intro h
          obtain ⟨a, ha, hai⟩ := Option.map_eq_some'.mp h
          have hi : a = i := by omega
          subst hi
          obtain ⟨hocc, hmin⟩ := ih.mp ha
          refine ⟨occursAt_cons_succ.mpr hocc, ?_⟩
          intro k hk
          match k with
          | 0 =>
            intro habs
            exact hp (isPrefixOf_iff.mpr (occursAt_zero_iff.mp habs))
          | k + 1 =>
            intro habs
            exact hmin k (by omega) (occursAt_cons_succ.mp habs)
        · rintro ⟨hocc, hmin⟩
          have ht : findSub pat t = some i := by
            apply ih.mpr
            refine ⟨occursAt_cons_succ.mp hocc, ?_⟩
            intro j hj habs
            exact hmin (j + 1) (by omega) (occursAt_cons_succ.mpr habs)
          rw [ht]
          rfl

theorem findSub_eq_none_iff {pat s : Str} :
    findSub pat s = none ↔ ∀ j, ¬ OccursAt pat s j := by
  induction s with
  | nil =>
    show (if pat.isPrefixOf [] then some 0 else none) = none ↔ _
    by_cases hp : pat.isPrefixOf ([] : Str)
    · rw [if_pos hp]
      simp only [reduceCtorEq, false_iff, not_forall]
      exact ⟨0, by simpa using occursAt_zero_iff.mpr (isPrefixOf_iff.mp hp)⟩
    · rw [if_neg hp]
      simp only [true_iff]
      intro j habs
      apply hp
      apply isPrefixOf_iff.mpr
      simpa [OccursAt] using habs
  | cons c t ih =>
    show (if pat.isPrefixOf (c :: t) then some 0 else (findSub pat t).map (· + 1)) = none ↔ _
    by_cases hp : pat.isPrefixOf (c :: t)
    · rw [if_pos hp]
      simp only [reduceCtorEq, false_iff, not_forall]
      exact ⟨0, by simpa using occursAt_zero_iff.mpr (isPrefixOf_iff.mp hp)⟩
    · rw [if_neg hp]
      rw [Option.map_eq_none', ih]
      constructor
      · intro h j
        match j with
        | 0 =>
          intro habs
          exact hp (isPrefixOf_iff.mpr (occursAt_zero_iff.mp habs))
        | j + 1 =>
          intro habs
          exact h j (occursAt_cons_succ.mp habs)
      · intro h j habs
        exact h (j + 1) (occursAt_cons_succ.mpr habs)

theorem containsSub_eq_false_iff {pat s : Str} :
    containsSub pat s = false ↔ ∀ j, ¬ OccursAt pat s j := by
  unfold containsSub
  cases hf : findSub pat s with
  | none => simpa using findSub_eq_none_iff.mp hf
  | some i =>
    simp only [Option.isSome_some, reduceCtorEq, false_iff, not_forall]
    exact ⟨i, by simpa using (findSub_eq_some_iff.mp hf).1⟩

/-- An occurrence inside the first `n` characters only depends on them. -/
theorem occursAt_of_take_eq {pat s s' : Str} {i n : Nat}
    (hn : i + pat.length ≤ n) (hss : s.take n = s'.take n) :
    OccursAt pat s i ↔ OccursAt pat s' i := by
  rw [occursAt_iff_take, occursAt_iff_take]
  have key : ∀ u : Str, u.take n = s.take n → (u.drop i).take pat.length =
      ((s.take n).drop i).take pat.length := by
    intro u hu
    rw [← hu]
    rw [List.take_drop, List.take_drop, List.take_take, Nat.min_eq_left hn]
  rw [key s rfl, key s' hss.symm]

theorem occursAt_append_self (pat A X : Str) :
    OccursAt pat (A ++ (pat ++ X)) A.length := by
  unfold OccursAt
  rw [List.drop_left]
  exact List.prefix_append pat X

/-- If `pat` first occurs in `A ++ pat` at `A.length` (i.e. nowhere earlier,
not even straddling into the copy), the same holds after appending any tail:
an occurrence before `A.length` would fit inside the first
`A.length + pat.length` characters, which both strings share. -/
theorem findSub_append_extend {pat A : Str}
    (h : findSub pat (A ++ pat) = some A.length) (X : Str) :
    findSub pat (A ++ (pat ++ X)) = some A.length := by
  obtain ⟨-, hmin⟩ := findSub_eq_some_iff.mp h
  apply findSub_eq_some_iff.mpr
  refine ⟨occursAt_append_self pat A X, ?_⟩
  intro j hj
  have htake : (A ++ (pat ++ X)).take (A.length + pat.length) =
      (A ++ pat).take (A.length + pat.length) := by
    rw [← List.append_assoc, List.take_append_of_le_length (by simp)]
  rw [occursAt_of_take_eq (by omega) htake]
  exact hmin j hj

theorem occursAt_drop {pat s : Str} {k j : Nat} :
    OccursAt pat (s.drop k) j ↔ OccursAt pat s (k + j) := by
  unfold OccursAt
  rw [List.drop_drop, Nat.add_comm]

theorem findSub_drop_of_le {pat s : Str} {i k : Nat}
    (h : findSub pat s = some i) (hk : k ≤ i) :
    findSub pat (s.drop k) = some (i - k) := by
  obtain ⟨hocc, hmin⟩ := findSub_eq_some_iff.mp h
  apply findSub_eq_some_iff.mpr
  constructor
  · rw [occursAt_drop]
    have : k + (i - k) = i := by omega
    rw [this]
    exact hocc
  · intro j hj
    rw [occursAt_drop]
    exact hmin (k + j) (by omega)

/-- Rust `s.split(pat).next().unwrap_or(s)`-style prefix before the first
occurrence of `pat` (the whole string when `pat` does not occur). -/
def takeUntilSub (pat s : Str) : Str :=
  match findSub pat s with
  | some j => s.take j
  | none => s

theorem takeUntilSub_of_not_contains {pat s : Str}
    (h : containsSub pat s = false) : takeUntilSub pat s = s := by
  unfold takeUntilSub
  unfold containsSub at h
  cases hf : findSub pat s with
  | none => rfl
  | some j => rw [hf] at h; exact absurd h (by simp)

theorem takeUntilSub_append {pat B X : Str}
    (h : findSub pat (B ++ (pat ++ X)) = some B.length) :
    takeUntilSub pat (B ++ (pat ++ X)) = B := by
  unfold takeUntilSub
  rw [h]
  exact List.take_left B (pat ++ X)

end FindSubTheory

section SplitTheory

/- Rust `str::split('\n')` is `List.splitOn '\n'` on the character list; the
library lemmas `List.splitOnP_first`, `List.splitOnP_eq_single` and
`List.intercalate_splitOn` cover most of what is needed.  Two extra facts: -/

theorem splitOn_concat_sep (c : Char) (s : Str) :
    (s ++ [c]).splitOn c = s.splitOn c ++ [[]] := by
  induction s with
  | nil =>
    show List.splitOnP (· == c) [c] = [[], []]
    rw [List.splitOnP_cons, if_pos (by simp)]
    rfl
  | cons a t ih =>
    show List.splitOnP (· == c) (a :: (t ++ [c])) =
      List.splitOnP (· == c) (a :: t) ++ [[]]
    rw [List.splitOnP_cons, List.splitOnP_cons,
      show List.splitOnP (· == c) (t ++ [c]) = List.splitOnP (· == c) t ++ [[]] from ih]
    by_cases hac : a = c
    · rw [if_pos (by simp [hac]), if_pos (by simp [hac])]
      rfl
    · rw [if_neg (by simp [hac]), if_neg (by simp [hac])]
      cases ht : t.splitOn c with
      | nil => exact absurd ht (List.splitOnP_ne_nil _ t)
      | cons h r =>
        rw [show List.splitOnP (· == c) t = h :: r from ht]
        rfl

theorem mem_of_mem_splitOn {c : Char} {s l : Str} (hl : l ∈ s.splitOn c)
    {a : Char} (ha : a ∈ l) : a ∈ s := by
  induction s generalizing l with
  | nil =>
    rw [List.splitOn_nil, List.mem_singleton] at hl
    subst hl
    exact absurd ha (List.not_mem_nil a)
  | cons b t ih =>
    rw [show (b :: t).splitOn c = List.splitOnP (· == c) (b :: t) from rfl,
      List.splitOnP_cons] at hl
    by_cases hbc : b = c
    · rw [if_pos (by simp [hbc])] at hl
      rcases List.mem_cons.mp hl with rfl | hl2
      · exact absurd ha (List.not_mem_nil a)
      · exact List.mem_cons_of_mem b (ih hl2 ha)
    · rw [if_neg (by simp [hbc])] at hl
      cases ht : t.splitOn c with
      | nil => exact absurd ht (List.splitOnP_ne_nil _ t)
      | cons h r =>
        rw [show List.splitOnP (· == c) t = h :: r from ht] at hl
        rcases List.mem_cons.mp hl with rfl | hl2
        · rcases List.mem_cons.mp ha with rfl | ha2
          · exact List.mem_cons_self a t
          · exact List.mem_cons_of_mem b (ih (ht ▸ List.mem_cons_self h r) ha2)
        · exact List.mem_cons_of_mem b (ih (ht ▸ List.mem_cons_of_mem h hl2) ha)

theorem splitOn_append_cons {c : Char} {x : Str} (y : Str) (h : c ∉ x) :
    (x ++ c :: y).splitOn c = x :: y.splitOn c := by
  have hx : ∀ e ∈ x, ¬((e == c) = true) := by
    intro e he hec
    rw [beq_iff_eq] at hec
    exact h (hec ▸ he)
  exact List.splitOnP_first (· == c) x hx c (by simp) y

end SplitTheory

section TrimTheory

theorem trimStart_cons_pos {a : Char} {s : Str} (h : isWsChar a = true) :
    trimStart (a :: s) = trimStart s := by
  unfold trimStart
  rw [List.dropWhile_cons, if_pos h]

theorem trimStart_cons_neg {a : Char} {s : Str} (h : isWsChar a = false) :
    trimStart (a :: s) = a :: s := by
  unfold trimStart
  rw [List.dropWhile_cons, if_neg (by rw [h]; exact Bool.false_ne_true)]

theorem trim_cons_ws {a : Char} {s : Str} (h : isWsChar a = true) :
    trim (a :: s) = trim s := by
  unfold trim
  rw [trimStart_cons_pos h]

theorem trimEnd_concat_neg {a : Char} {s : Str} (h : isWsChar a = false) :
    trimEnd (s ++ [a]) = s ++ [a] := by
  unfold trimEnd
  rw [List.reverse_append, List.reverse_singleton, List.singleton_append,
    List.dropWhile_cons, if_neg (by rw [h]; exact Bool.false_ne_true)]
  rw [List.reverse_cons, List.reverse_reverse]

theorem trim_eq_self_of_stable {s : Str} (h1 : trimStart s = s)
    (h2 : trimEnd s = s) : trim s = s := by
  unfold trim
  rw [h1, h2]

/-- Trimming a string of shape `c ++ mid ++ [d]` with non-whitespace `c`, `d`
are the identity. -/
theorem trim_cons_concat {c d : Char} {mid : Str} (hc : isWsChar c = false)
    (hd : isWsChar d = false) : trim (c :: mid ++ [d]) = c :: mid ++ [d] := by
  apply trim_eq_self_of_stable
  · exact trimStart_cons_neg hc
  · rw [show c :: mid ++ [d] = (c :: mid) ++ [d] from rfl]
    exact trimEnd_concat_neg hd

end TrimTheory

section LinesTheory

/-- Rust's `Lines` iterator strips a single trailing carriage return from
each piece. -/
def stripCR (l : Str) : Str := if l.getLast? = some '\r' then l.dropLast else l

/-- Rust `str::lines`: split at `'\n'`, ignore a final empty piece produced by
a trailing newline, and strip one trailing `'\r'` per line. -/
def rustLines (s : Str) : List Str :=
  let parts := s.splitOn '\n'
  (if parts.getLast? = some [] then parts.dropLast else parts).map stripCR

theorem stripCR_of_ne {l : Str} (h : l.getLast? ≠ some '\r') : stripCR l = l := by
  unfold stripCR
  rw [if_neg h]

theorem mem_of_getLast?_eq {l : Str} {a : Char} (h : l.getLast? = some a) :
    a ∈ l := by
  cases l with
  | nil => simp at h
  | cons b t =>
    have hne : b :: t ≠ [] := by simp
    rw [List.getLast?_eq_getLast_of_ne_nil hne] at h
    injection h with h
    rw [← h]
    exact List.getLast_mem hne

theorem stripCR_of_not_mem {l : Str} (h : '\r' ∉ l) : stripCR l = l := by
  apply stripCR_of_ne
  intro habs
  exact h (mem_of_getLast?_eq habs)

end LinesTheory

section DateTimeModel

/-- A naive calendar timestamp (assumed UTC by the services). -/
structure NaiveDT where
  year : Nat
  month : Nat
  day : Nat
  hour : Nat
  minute : Nat
  second : Nat
deriving DecidableEq

def isLeapYear (y : Nat) : Bool :=
  (y % 4 = 0 && y % 100 ≠ 0) || y % 400 = 0

def daysInMonth (y m : Nat) : Nat :=
  if m = 2 then (if isLeapYear y then 29 else 28)
  else if m = 4 || m = 6 || m = 9 || m = 11 then 30
  else 31

def digitVal (c : Char) : Nat := c.toNat - '0'.toNat

/-- Modelled external collaborator (the `chrono` crate is not part of this
repository): `DateTime::parse_from_str(ts ++ " +0000", "%Y-%m-%d %H:%M:%S %z")`
on an already-trimmed `ts`, i.e. a strict parse of the fixed
`YYYY-MM-DD HH:MM:SS` shape with calendar validation.  Multi-digit years
beyond four digits and leap-second 60 are not modelled; no claim depends on
those corners. -/
def parseDT (s : Str) : Option NaiveDT :=
  match s with
  | [y1, y2, y3, y4, a1, m1, m2, a2, d1, d2, a3, h1, h2, a4, n1, n2, a5, e1, e2] =>
    if (y1.isDigit && y2.isDigit && y3.isDigit && y4.isDigit &&
        m1.isDigit && m2.isDigit && d1.isDigit && d2.isDigit &&
        h1.isDigit && h2.isDigit && n1.isDigit && n2.isDigit &&
        e1.isDigit && e2.isDigit) = true ∧
        a1 = '-' ∧ a2 = '-' ∧ a3 = ' ' ∧ a4 = ':' ∧ a5 = ':' then
      let y := 1000 * digitVal y1 + 100 * digitVal y2 + 10 * digitVal y3 + digitVal y4
      let mo := 10 * digitVal m1 + digitVal m2
      let d := 10 * digitVal d1 + digitVal d2
      let h := 10 * digitVal h1 + digitVal h2
      let mi := 10 * digitVal n1 + digitVal n2
      let se := 10 * digitVal e1 + digitVal e2
      if 1 ≤ mo ∧ mo ≤ 12 ∧ 1 ≤ d ∧ d ≤ daysInMonth y mo ∧ h ≤ 23 ∧ mi ≤ 59 ∧ se ≤ 59 then
        some ⟨y, mo, d, h, mi, se⟩
      else none
    else none
  | _ => none

end DateTimeModel

section Markers

/- Marker literals of the two crates (`weather/src/lib.rs` constants and the
`format!` calls of `wakatime/src/service.rs` / `wakatime/src/stats.rs`). -/

def commentClose : Str := "-->".data

def startPw : Str := "<!--START_SECTION:weather:".data

def weatherEnd : Str := "<!--END_SECTION:weather-->".data

def lastWeatherUpd : Str := "<!--LAST_WEATHER_UPDATE:".data

def lastWakaUpd : Str := "<!--LAST_WAKA_UPDATE:".data

def commentOpenM : Str := "<!--".data

def fenceMark : Str := "```".data

/-- Rust `format!("<!--START_SECTION:{}-->", section_name)`. -/
def mkStartMarker (name : Str) : Str := "<!--START_SECTION:".data ++ name ++ commentClose

/-- Rust `format!("<!--END_SECTION:{}-->", section_name)`. -/
def mkEndMarker (name : Str) : Str := "<!--END_SECTION:".data ++ name ++ commentClose

end Markers

section FsModel

/-- Observable filesystem effects of one patch cycle. -/
inductive FsOp where
  | write (path content : Str)
  | rename (src dst : Str)
deriving DecidableEq

/-- Rust `Path::with_extension("tmp")`: replace the extension after the last dot
of the file name (append `.tmp` when there is none).  Directory separators
and hidden-file subtleties are not modelled; the configured path is the bare
file name `README.md`. -/
def withExtTmp (p : Str) : Str :=
  match findSub ['.'] p.reverse with
  | some j => p.take (p.length - 1 - j) ++ ".tmp".data
  | none => p ++ ".tmp".data

/-- The path `"README.md"` wired up in `urdekcah/src/main.rs` and
`WakaTimeService::run`. -/
def readmePath : Str := "README.md".data

end FsModel

section WeatherModel

inductive WError where
  | weatherSectionNotFound
  | missingCityInSection
  | invalidCity
  | rateLimitExceeded
  | apiError
  | invalidResponse
deriving DecidableEq

/-- The parsed weather section (`WeatherSection` in `weather/src/service.rs`). -/
structure WSection where
  city : Str
  lastUpd : Option NaiveDT
  startPos : Nat
  endPos : Nat
  content : Str
deriving DecidableEq

/-- Model of `WeatherSection::parse_last_update`: search `LAST_UPDATE_PREFIX` inside
the given text only, cut at the next `-->` (or end of text), trim, parse;
a parse failure yields `None`, never an error.  (The Rust slice
`[timestamp_start..timestamp_start+timestamp_end]` would panic when `-->` is
absent and `timestamp_start > 0`; `take` truncates instead — the difference
is a panic path no claim exercises.) -/
def weatherParseLastUpd (content : Str) : Option NaiveDT :=
  match findSub lastWeatherUpd content with
  | none => none
  | some p =>
    let tsStart := p + lastWeatherUpd.length
    let tsEnd := (findSub commentClose (content.drop tsStart)).getD content.length
    parseDT (trim ((content.drop tsStart).take tsEnd))

/-- Model of `WeatherSection::parse` (weather/src/service.rs lines 33-63). -/
def weatherSectionParse (content : Str) : Except WError WSection :=
  match findSub startPw content with
  | none => .error .weatherSectionNotFound
  | some startPos =>
    match findSub weatherEnd (content.drop startPos) with
    | none => .error .weatherSectionNotFound
    | some rel =>
      let endPos := startPos + rel
      let cityStart := startPos + startPw.length
      match findSub commentClose (content.drop cityStart) with
      | none => .error .missingCityInSection
      | some cityEnd =>
        let city := trim ((content.drop cityStart).take cityEnd)
        if city = [] then .error .missingCityInSection
        else
          let sectionContent := (content.drop startPos).take (endPos - startPos)
          .ok ⟨city, weatherParseLastUpd sectionContent, startPos, endPos,
            (content.drop startPos).take (endPos + weatherEnd.length - startPos)⟩

/-- Model of `WeatherService::update_readme` (weather/src/service.rs lines 191-212):
the new document spliced around the parsed section.  `weatherText` stands for
`weather.format_readme()`, which is
`LAST_UPDATE_PREFIX ++ now ++ "-->" ++ "\n" ++ body`. -/
def weatherUpdateReadme (content : Str) (sec : WSection) (weatherText : Str) : Str :=
  content.take sec.startPos ++ startPw ++ sec.city ++ commentClose ++ ['\n'] ++
    weatherText ++ content.drop (sec.endPos + weatherEnd.length)

/-- Model of `WeatherInfo::format_readme`: the timestamp marker line plus the rendered
body. -/
def weatherFormatReadme (now : Str) (body : Str) : Str :=
  lastWeatherUpd ++ now ++ commentClose ++ ['\n'] ++ body

/-- One weather patch cycle over an in-memory document snapshot
(`WeatherService::run` minus the network fetch, whose rendered output is the
`weatherText` argument): parse, splice, then write through the temporary
sibling file and rename it over the original. -/
def weatherRunModel (doc : Str) (weatherText : Str) :
    Except WError (Str × List FsOp) :=
  match weatherSectionParse doc with
  | .error e => .error e
  | .ok sec =>
    let newDoc := weatherUpdateReadme doc sec weatherText
    .ok (newDoc, [FsOp.write (withExtTmp readmePath) newDoc,
      FsOp.rename (withExtTmp readmePath) readmePath])

/-- The orchestrator `ServiceRunner::run` catches a weather cycle error, logs it and moves on;
only a successful cycle performs filesystem operations. -/
def serviceRunnerWeatherOps (doc : Str) (weatherText : Str) : List FsOp :=
  match weatherRunModel doc weatherText with
  | .error _ => []
  | .ok (_, ops) => ops

end WeatherModel

section StatsModel

/-- Rust `str::trim_start_matches(p)`: strip every leading repetition of `p`. -/
def stripPreAll (p s : Str) : Str :=
  if h : p ≠ [] ∧ p.isPrefixOf s then stripPreAll p (s.drop p.length) else s
termination_by s.length
decreasing_by
  have hle : p.length ≤ s.length := (isPrefixOf_iff.mp h.2).length_le
  have hp : 0 < p.length := List.length_pos.mpr h.1
  simp only [List.length_drop]
  omega

/-- Rust `str::trim_end_matches(p)`: strip every trailing repetition of `p`. -/
def stripSufAll (p s : Str) : Str :=
  if h : p ≠ [] ∧ p.isSuffixOf s then stripSufAll p (s.take (s.length - p.length)) else s
termination_by s.length
decreasing_by
  have hle : p.length ≤ s.length := (List.isSuffixOf_iff_suffix.mp h.2).length_le
  have hp : 0 < p.length := List.length_pos.mpr h.1
  simp only [List.length_take]
  omega

/-- Line filter of `StatsUpdater::extract_content_and_timestamp`:
`!line.trim().starts_with("<!--") && !line.trim().ends_with("-->")`. -/
def keepLine (l : Str) : Bool :=
  !(commentOpenM.isPrefixOf (trim l)) && !(commentClose.isSuffixOf (trim l))

/-- Model of `StatsUpdater::parse_last_update`: find the line starting with the
timestamp marker, peel marker and closer, trim, parse (failure ⇒ `none`). -/
def statsParseLastUpd (s : Str) : Option NaiveDT :=
  match (rustLines s).find? (fun l => lastWakaUpd.isPrefixOf l) with
  | none => none
  | some line =>
    parseDT (trim (stripSufAll commentClose (stripPreAll lastWakaUpd line)))

/-- Rust `readme.split(&start_marker).nth(1).and_then(|s| s.split(&end_marker).next())`:
the text between the first start marker and the following end marker (cut
also at a second start marker, and running to the end when no end marker
follows). -/
def statsExtractSection (startM endM doc : Str) : Option Str :=
  (findSub startM doc).map (fun i =>
    takeUntilSub endM (takeUntilSub startM (doc.drop (i + startM.length))))

/-- Model of `StatsUpdater::extract_content_and_timestamp` (stats.rs lines 57-81). -/
def statsExtractContent (startM endM doc : Str) : Option (Str × Option NaiveDT) :=
  match statsExtractSection startM endM doc with
  | none => none
  | some sec =>
    some (trim (List.intercalate ['\n'] ((rustLines sec).filter keepLine)),
      statsParseLastUpd sec)

/-- Model of `StatsUpdater::contents_equal` normalisation: trim lines, drop blanks,
drop code-fence lines, rejoin. -/
def normLines (s : Str) : Str :=
  List.intercalate ['\n'] ((((rustLines s).map trim).filter
      (fun l => !l.isEmpty)).filter
    (fun l => !(fenceMark.isPrefixOf l) && !(fenceMark.isSuffixOf l)))

def contentsEqual (c1 c2 : Str) : Bool := normLines c1 == normLines c2

/-- Model of the `StatsUpdater::replace_section` replacement text:
`"{start}\n{LAST_WAKA_UPDATE:}{now}-->\n{content}\n{end}"`. -/
def statsNewSection (startM endM content now : Str) : Str :=
  startM ++ ['\n'] ++ lastWakaUpd ++ now ++ commentClose ++ ['\n'] ++
    content ++ ['\n'] ++ endM

/-- First-match replace of the regex `escape(start)[\s\S]+?escape(end)`: the
leftmost match starts at the first start-marker occurrence, the non-greedy
gap ends at the earliest end-marker occurrence at least one character later;
without a match the document is returned unchanged.  (Dollar-sign expansion
in the replacement string is not modelled; no replacement used here contains
`$`.) -/
def replaceSectionStats (startM endM doc repl : Str) : Str :=
  match findSub startM doc with
  | none => doc
  | some i =>
    match findSub endM (doc.drop (i + startM.length + 1)) with
    | none => doc
    | some j =>
      doc.take i ++ repl ++ doc.drop (i + startM.length + 1 + j + endM.length)

/-- Model of `StatsUpdater::update` (stats.rs lines 32-55) on an in-memory document:
result is the document after the call, the `was_updated` flag, and the
filesystem writes performed (a single direct `fs::write`, no temp file). -/
def statsUpdate (startM endM doc newContent now : Str) :
    Option (Str × Bool × List FsOp) :=
  match statsExtractContent startM endM doc with
  | none => none
  | some (existing, _) =>
    if contentsEqual (trim existing) (trim newContent) then some (doc, false, [])
    else
      let d1 := replaceSectionStats startM endM doc
        (statsNewSection startM endM newContent now)
      some (d1, true, [FsOp.write readmePath d1])

end StatsModel

section WakaServiceModel

/-- Index of the last occurrence of `pat` in `s` at position `≥ k`. -/
def findLastSubFrom (pat s : Str) (k : Nat) : Option Nat :=
  (((List.range (s.length + 1)).filter
    (fun i => decide (k ≤ i) && pat.isPrefixOf (s.drop i)))).getLast?

/-- First-match replace of the GREEDY regex `escape(start)[\s\S]+escape(end)`
used by `WakaTimeService::update_readme`: the gap extends to the last
end-marker occurrence at least one character after the start marker. -/
def wakaReplaceGreedy (startM endM doc repl : Str) : Str :=
  match findSub startM doc with
  | none => doc
  | some i =>
    match findLastSubFrom endM doc (i + startM.length + 1) with
    | none => doc
    | some j => doc.take i ++ repl ++ doc.drop (j + endM.length)

/-- Model of `WakaTimeService::parse_last_update` (service.rs lines 171-185): note it
searches the text it is given — and `update_readme` hands it the WHOLE
readme, not the section. -/
def wakaParseLastUpd (content : Str) : Option NaiveDT :=
  match findSub lastWakaUpd content with
  | none => none
  | some p =>
    let tsStart := p + lastWakaUpd.length
    let tsEnd := (findSub commentClose (content.drop tsStart)).getD content.length
    parseDT (trim ((content.drop tsStart).take tsEnd))

/-- Replacement text of `WakaTimeService::update_readme`:
`"{start}\n<!--LAST_WAKA_UPDATE:{now}-->\n{fence}{lang}\n{content}{fence}\n{end}"`. -/
def wakaReplacement (startM endM codeLang content now : Str) : Str :=
  startM ++ ['\n'] ++ lastWakaUpd ++ now ++ commentClose ++ ['\n'] ++
    fenceMark ++ codeLang ++ ['\n'] ++ content ++ fenceMark ++ ['\n'] ++ endM

structure WakaUpdateResult where
  doc : Str
  lastUpd : Option NaiveDT
  wasUpdated : Bool
  ops : List FsOp
deriving DecidableEq

/-- Model of `WakaTimeService::update_readme` (service.rs lines 126-169): greedy regex
replace, `was_updated := new_readme != readme` (raw byte comparison of the
whole document, timestamp included), and a DIRECT `fs::write` to the README
when updated. -/
def wakaUpdateReadme (sectionName codeLang doc content now : Str) : WakaUpdateResult :=
  let startM := mkStartMarker sectionName
  let endM := mkEndMarker sectionName
  let newDoc := wakaReplaceGreedy startM endM doc
    (wakaReplacement startM endM codeLang content now)
  let wasUpdated := newDoc != doc
  ⟨newDoc, wakaParseLastUpd doc, wasUpdated,
    if wasUpdated then [FsOp.write readmePath newDoc] else []⟩

end WakaServiceModel

section CacheModel

/- The cache slot is `RwLock<Option<(Value, DateTime<Utc>)>>`; time is
modelled as an integer instant, `fetchResult` stands for the outcome of the
abstracted network call (HTTP client and JSON decoding are external
collaborators), and the returned `Bool` records whether that call was made. -/

/-- Miss path of `WeatherService::fetch_weather`: validate the city, perform
the fetch, and on success overwrite the cache slot wholesale with
`(new value, now)`. -/
def weatherFetchMiss {α : Type} (city : Str) (fetchResult : Except WError α)
    (cache : Option (α × Int)) (nowWrite : Int) :
    Except WError α × Option (α × Int) × Bool :=
  if trim city = [] then (.error .invalidCity, cache, false)
  else
    match fetchResult with
    | .ok info => (.ok info, some (info, nowWrite), true)
    | .error e => (.error e, cache, true)

/-- Model of `WeatherService::fetch_weather` (weather/src/service.rs lines 133-188):
a fresh cache entry (`now - fetched_at < cache_duration`) is returned
without fetching; otherwise the miss path runs. -/
def weatherFetchModel {α : Type} (cache : Option (α × Int))
    (nowRead cacheDur : Int) (city : Str) (fetchResult : Except WError α)
    (nowWrite : Int) : Except WError α × Option (α × Int) × Bool :=
  match cache with
  | some (info, t) =>
    if nowRead - t < cacheDur then (.ok info, some (info, t), false)
    else weatherFetchMiss city fetchResult cache nowWrite
  | none => weatherFetchMiss city fetchResult cache nowWrite

/-- Model of `WakaTimeService::fetch_stats` (wakatime/src/service.rs lines 75-101):
the cache slot is written after every successful fetch but never read — the
network call happens unconditionally. -/
def wakaFetchStatsModel {α : Type} (cache : Option (α × Int))
    (fetchResult : Except WError α) (nowWrite : Int) :
    Except WError α × Option (α × Int) × Bool :=
  match fetchResult with
  | .ok s => (.ok s, some (s, nowWrite), true)
  | .error e => (.error e, cache, true)

end CacheModel

section GraphModel

/- `Template::make_graph` (wakatime/src/template.rs lines 134-153).  The
`f64` arithmetic is modelled with exact rationals; every concrete input used
below is chosen so that the corresponding `f64` computation is exact or far
from the relevant rounding boundaries, hence the discrepancies shown are not
floating-point artifacts. -/

def graphWidth : Nat := 25

def graphProportion (percent : ℚ) : ℚ :=
  min (percent / 100 * (graphWidth : ℚ)) (graphWidth : ℚ)

/-- Rust `(proportion + 0.125) as usize`. -/
def graphFullBlocks (percent : ℚ) : Nat :=
  rustAsUsize (graphProportion percent + 0.125)

/-- Rust `((proportion - full_blocks as f64) * 4.0 + 0.5) as usize`. -/
def graphRemainder (percent : ℚ) : Nat :=
  rustAsUsize ((graphProportion percent - (graphFullBlocks percent : ℚ)) * 4 + 0.5)

def makeGraph (blocks : List Char) (percent : ℚ) : Str :=
  if blocks.length ≠ 4 then "Invalid blocks configuration".data
  else
    let full := graphFullBlocks percent
    let remainder := graphRemainder percent
    let graph := List.replicate full (blocks.getD 3 ' ')
    let graph :=
      if 0 < remainder ∧ remainder < blocks.length then
        graph ++ [blocks.getD remainder ' ']
      else graph
    graph ++ List.replicate (graphWidth - graph.length) (blocks.getD 0 ' ')

/-- The §4.2 bar algorithm exactly as the specification words it, with its
stated `step = 1/3`: `full_count = floor(proportion + step/2)`,
`remainder = floor((proportion - full_count)/step + 0.5)`, transitional glyph
appended when `0 < remainder < 4`, empty-glyph padding to 25 cells. -/
def specGraphThird (blocks : List Char) (percent : ℚ) : Str :=
  let step : ℚ := 1 / 3
  let proportion := min (percent / 100 * 25) 25
  let fullCount := (⌊proportion + step / 2⌋).toNat
  let remainder := (⌊(proportion - (fullCount : ℚ)) / step + 0.5⌋).toNat
  let graph := List.replicate fullCount (blocks.getD 3 ' ')
  let graph :=
    if 0 < remainder ∧ remainder < 4 then graph ++ [blocks.getD remainder ' ']
    else graph
  graph ++ List.replicate (25 - graph.length) (blocks.getD 0 ' ')

/-- The same specification wording with `step = 1/4` instead of `1/3` — the
amendment the code forces. -/
def specGraphQuarter (blocks : List Char) (percent : ℚ) : Str :=
  let step : ℚ := 1 / 4
  let proportion := min (percent / 100 * 25) 25
  let fullCount := (⌊proportion + step / 2⌋).toNat
  let remainder := (⌊(proportion - (fullCount : ℚ)) / step + 0.5⌋).toNat
  let graph := List.replicate fullCount (blocks.getD 3 ' ')
  let graph :=
    if 0 < remainder ∧ remainder < 4 then graph ++ [blocks.getD remainder ' ']
    else graph
  graph ++ List.replicate (25 - graph.length) (blocks.getD 0 ' ')

end GraphModel

section AppendHelpers

theorem take_app (x y : Str) (n : Nat) :
    (x ++ y).take (x.length + n) = x ++ y.take n := by
  rw [List.take_append_eq_append_take, List.take_of_length_le (by omega),
    Nat.add_sub_cancel_left]

theorem drop_app (x y : Str) (n : Nat) :
    (x ++ y).drop (x.length + n) = y.drop n := by
  rw [List.drop_append_eq_append_drop, List.drop_of_length_le (by omega),
    Nat.add_sub_cancel_left]
  simp

end AppendHelpers

section StatsUpdateTheory

/-- The body that `StatsUpdater::replace_section` writes strictly between the
two markers: newline, timestamp marker line, newline, content, newline. -/
def freshBody (ts C : Str) : Str :=
  ['\n'] ++ lastWakaUpd ++ ts ++ commentClose ++ ['\n'] ++ C ++ ['\n']

theorem statsNewSection_shape (startM endM C ts : Str) :
    statsNewSection startM endM C ts = startM ++ (freshBody ts C ++ endM) := by
  simp [statsNewSection, freshBody, List.append_assoc]

theorem statsExtractSection_structured (startM endM A B D : Str)
    (hStart : findSub startM (A ++ startM) = some A.length)
    (hNoT : containsSub startM (B ++ (endM ++ D)) = false)
    (hEndT : findSub endM (B ++ (endM ++ D)) = some B.length) :
    statsExtractSection startM endM (A ++ (startM ++ (B ++ (endM ++ D)))) = some B := by
  unfold statsExtractSection
  rw [findSub_append_extend hStart (B ++ (endM ++ D))]
  have hdrop : (A ++ (startM ++ (B ++ (endM ++ D)))).drop (A.length + startM.length) =
      B ++ (endM ++ D) := by
    rw [drop_app]
    exact List.drop_left _ _
  rw [Option.map_some', hdrop, takeUntilSub_of_not_contains hNoT,
    takeUntilSub_append hEndT]

theorem replaceSectionStats_structured (startM endM A B D repl : Str)
    (hStart : findSub startM (A ++ startM) = some A.length)
    (hB : B ≠ [])
    (hEndT : findSub endM (B ++ (endM ++ D)) = some B.length) :
    replaceSectionStats startM endM (A ++ (startM ++ (B ++ (endM ++ D)))) repl =
      A ++ (repl ++ D) := by
  have hBlen : 1 ≤ B.length := List.length_pos.mpr hB
  have hdrop1 : (A ++ (startM ++ (B ++ (endM ++ D)))).drop (A.length + startM.length + 1) =
      (B ++ (endM ++ D)).drop 1 := by
    have harr : A.length + startM.length + 1 = A.length + (startM.length + 1) := by omega
    rw [harr, drop_app, drop_app]
  have hfind1 : findSub endM ((B ++ (endM ++ D)).drop 1) = some (B.length - 1) :=
    findSub_drop_of_le hEndT hBlen
  have harith : A.length + startM.length + 1 + (B.length - 1) + endM.length =
      A.length + (startM.length + (B.length + endM.length)) := by
    omega
  have hdrop2 : (A ++ (startM ++ (B ++ (endM ++ D)))).drop
      (A.length + (startM.length + (B.length + endM.length))) = D := by
    rw [drop_app, drop_app, drop_app]
    exact List.drop_left _ _
  simp only [replaceSectionStats, findSub_append_extend hStart (B ++ (endM ++ D)),
    hdrop1, hfind1, harith, hdrop2, List.take_left, List.append_assoc]

theorem splitOn_cons_self (c : Char) (s : Str) :
    (c :: s).splitOn c = [] :: s.splitOn c := by
  show List.splitOnP (· == c) (c :: s) = [] :: List.splitOnP (· == c) s
  rw [List.splitOnP_cons, if_pos (by simp)]

theorem intercalate_cons_nil (sep x : Str) (t : List Str) :
    List.intercalate sep ([] :: x :: t) = sep ++ List.intercalate sep (x :: t) := by
  simp [List.intercalate, List.intersperse_cons_cons]

/-- Extraction-then-normalisation of a freshly written section body recovers
the rendered content: the leading blank line survives the filter but is
swallowed by the final trim, the timestamp marker line is dropped by the
comment filter, and well-behaved content lines pass through untouched. -/
theorem statsContent_of_freshBody (C ts : Str)
    (htsn : '\n' ∉ ts) (htsr : '\r' ∉ ts)
    (hCr : '\r' ∉ C) (hCtrim : trim C = C)
    (hClines : ∀ l ∈ C.splitOn '\n', trim l = l ∧ l ≠ [] ∧
      commentOpenM.isPrefixOf l = false ∧ commentClose.isSuffixOf l = false) :
    trim (List.intercalate ['\n'] ((rustLines (freshBody ts C)).filter keepLine)) = C := by
  have hshape : freshBody ts C =
      '\n' :: ((lastWakaUpd ++ (ts ++ commentClose)) ++ ('\n' :: (C ++ ['\n']))) := by
    simp [freshBody, List.append_assoc]
  have hnlm : '\n' ∉ lastWakaUpd ++ (ts ++ commentClose) := by
    intro h
    rcases List.mem_append.mp h with h1 | h2
    · exact (by decide : '\n' ∉ lastWakaUpd) h1
    · rcases List.mem_append.mp h2 with h3 | h4
      · exact htsn h3
      · exact (by decide : '\n' ∉ commentClose) h4
  have hsplit : (freshBody ts C).splitOn '\n' =
      [] :: (lastWakaUpd ++ (ts ++ commentClose)) :: (C.splitOn '\n' ++ [[]]) := by
    rw [hshape, splitOn_cons_self, splitOn_append_cons _ hnlm, splitOn_concat_sep]
  have hlines : rustLines (freshBody ts C) =
      ([] :: (lastWakaUpd ++ (ts ++ commentClose)) :: C.splitOn '\n').map stripCR := by
    simp only [rustLines, hsplit]
    have hform : ([] :: (lastWakaUpd ++ (ts ++ commentClose)) :: (C.splitOn '\n' ++ [[]])) =
        (([] :: (lastWakaUpd ++ (ts ++ commentClose)) :: C.splitOn '\n') ++ [[]]) := by
      simp
    rw [hform, List.getLast?_concat, if_pos rfl, List.dropLast_concat]
  have hmarkerCR : stripCR (lastWakaUpd ++ (ts ++ commentClose)) =
      lastWakaUpd ++ (ts ++ commentClose) := by
    apply stripCR_of_not_mem
    intro h
    rcases List.mem_append.mp h with h1 | h2
    · exact (by decide : '\r' ∉ lastWakaUpd) h1
    · rcases List.mem_append.mp h2 with h3 | h4
      · exact htsr h3
      · exact (by decide : '\r' ∉ commentClose) h4
  have hmap : ([] :: (lastWakaUpd ++ (ts ++ commentClose)) :: C.splitOn '\n').map stripCR =
      [] :: (lastWakaUpd ++ (ts ++ commentClose)) :: C.splitOn '\n' := by
    have hC : ∀ l ∈ C.splitOn '\n', stripCR l = l := fun l hl =>
      stripCR_of_not_mem (fun hr => hCr (mem_of_mem_splitOn hl hr))
    have hCmap : (C.splitOn '\n').map stripCR = C.splitOn '\n' :=
      calc (C.splitOn '\n').map stripCR = (C.splitOn '\n').map id := List.map_congr_left hC
        _ = C.splitOn '\n' := List.map_id _
    rw [List.map_cons, List.map_cons]
    rw [show stripCR ([] : Str) = [] from rfl, hmarkerCR, hCmap]
  have hmshape : lastWakaUpd ++ (ts ++ commentClose) =
      '<' :: (("!--LAST_WAKA_UPDATE:".data ++ (ts ++ "--".data)) ++ ['>']) := by
    rw [show lastWakaUpd = '<' :: "!--LAST_WAKA_UPDATE:".data from rfl,
      show commentClose = "--".data ++ ['>'] from rfl]
    simp [List.append_assoc]
  have htrimm : trim (lastWakaUpd ++ (ts ++ commentClose)) =
      lastWakaUpd ++ (ts ++ commentClose) := by
    rw [hmshape]
    exact trim_cons_concat (by decide) (by decide)
  have hprem : commentOpenM.isPrefixOf (lastWakaUpd ++ (ts ++ commentClose)) = true := by
    apply isPrefixOf_iff.mpr
    rw [show lastWakaUpd = commentOpenM ++ "LAST_WAKA_UPDATE:".data from rfl,
      List.append_assoc]
    exact List.prefix_append _ _
  have hkm : keepLine (lastWakaUpd ++ (ts ++ commentClose)) = false := by
    unfold keepLine
    rw [htrimm, hprem]
    rfl
  have hkl : ∀ l ∈ C.splitOn '\n', keepLine l = true := by
    intro l hl
    obtain ⟨ht, -, hp, hs⟩ := hClines l hl
    unfold keepLine
    rw [ht, hp, hs]
    rfl
  have hfilter : ([] :: (lastWakaUpd ++ (ts ++ commentClose)) :: C.splitOn '\n').filter
      keepLine = [] :: C.splitOn '\n' := by
    rw [List.filter_cons_of_pos (by decide), List.filter_cons_of_neg (by simp [hkm]),
      List.filter_eq_self.mpr hkl]
  have hC0 : C.splitOn '\n' ≠ [] := List.splitOnP_ne_nil _ _
  have hinter : List.intercalate ['\n'] ([] :: C.splitOn '\n') = '\n' :: C := by
    cases hL : C.splitOn '\n' with
    | nil => exact absurd hL hC0
    | cons l0 L' =>
      rw [intercalate_cons_nil, ← hL, List.intercalate_splitOn]
      rfl
  rw [hlines, hmap, hfilter, hinter, trim_cons_ws (by decide)]
  exact hCtrim

/-- A `StatsUpdater::update` call on a document whose section body was just
written by `replace_section` is a no-op: the normalised extraction equals
the rendered content, so `was_updated = false` and nothing is written. -/
theorem statsUpdate_on_fresh (startM endM A D C ts ts2 : Str)
    (hStart : findSub startM (A ++ startM) = some A.length)
    (hNoT1 : containsSub startM (freshBody ts C ++ (endM ++ D)) = false)
    (hEnd1 : findSub endM (freshBody ts C ++ (endM ++ D)) = some (freshBody ts C).length)
    (htsn : '\n' ∉ ts) (htsr : '\r' ∉ ts)
    (hCr : '\r' ∉ C) (hCtrim : trim C = C)
    (hClines : ∀ l ∈ C.splitOn '\n', trim l = l ∧ l ≠ [] ∧
      commentOpenM.isPrefixOf l = false ∧ commentClose.isSuffixOf l = false) :
    statsUpdate startM endM (A ++ (startM ++ (freshBody ts C ++ (endM ++ D)))) C ts2 =
      some (A ++ (startM ++ (freshBody ts C ++ (endM ++ D))), false, []) := by
  have hsec := statsExtractSection_structured startM endM A (freshBody ts C) D
    hStart hNoT1 hEnd1
  have hcontent := statsContent_of_freshBody C ts htsn htsr hCr hCtrim hClines
  have hceq : contentsEqual (trim C) (trim C) = true := by
    unfold contentsEqual
    exact beq_self_eq_true _
  simp only [statsUpdate, statsExtractContent, hsec, hcontent, hceq, if_true]

end StatsUpdateTheory

section WeatherParseTheory

/-- Computation of `WeatherSection::parse` on a document of the canonical
shape `A ++ start-marker ++ city ++ "-->" ++ M ++ end-marker ++ D`, under
first-occurrence hypotheses for the three marker searches: the parse fails
with `MissingCityInSection` exactly when the city trims to empty, and
otherwise succeeds with the embedded timestamp extracted from the
`[start_pos, end_pos)` substring only. -/
theorem weatherParse_structured (A city M D : Str)
    (hStart : findSub startPw (A ++ startPw) = some A.length)
    (hEnd : findSub weatherEnd
        (startPw ++ (city ++ (commentClose ++ (M ++ (weatherEnd ++ D))))) =
      some (startPw.length + (city.length + (commentClose.length + M.length))))
    (hClose : findSub commentClose
        (city ++ (commentClose ++ (M ++ (weatherEnd ++ D)))) =
      some city.length) :
    weatherSectionParse
        (A ++ (startPw ++ (city ++ (commentClose ++ (M ++ (weatherEnd ++ D)))))) =
      if trim city = [] then .error .missingCityInSection
      else .ok ⟨trim city,
        weatherParseLastUpd (startPw ++ (city ++ (commentClose ++ M))),
        A.length,
        A.length + (startPw.length + (city.length + (commentClose.length + M.length))),
        startPw ++ (city ++ (commentClose ++ (M ++ weatherEnd)))⟩ := by
  have h1 : findSub startPw
      (A ++ (startPw ++ (city ++ (commentClose ++ (M ++ (weatherEnd ++ D)))))) =
      some A.length :=
    findSub_append_extend hStart _
  have hdropA : (A ++ (startPw ++ (city ++ (commentClose ++ (M ++ (weatherEnd ++ D)))))).drop
      A.length = startPw ++ (city ++ (commentClose ++ (M ++ (weatherEnd ++ D)))) :=
    List.drop_left _ _
  have hdropC : (A ++ (startPw ++ (city ++ (commentClose ++ (M ++ (weatherEnd ++ D)))))).drop
      (A.length + startPw.length) = city ++ (commentClose ++ (M ++ (weatherEnd ++ D))) := by
    rw [drop_app]
    exact List.drop_left _ _
  have htakeCity : (city ++ (commentClose ++ (M ++ (weatherEnd ++ D)))).take city.length =
      city := List.take_left _ _
  have e1 : A.length + (startPw.length + (city.length + (commentClose.length + M.length))) -
      A.length = startPw.length + (city.length + (commentClose.length + M.length)) := by
    omega
  have e2 : A.length + (startPw.length + (city.length + (commentClose.length + M.length))) +
      weatherEnd.length - A.length =
      startPw.length + (city.length + (commentClose.length + (M.length + weatherEnd.length))) := by
    omega
  have htakeSec : (startPw ++ (city ++ (commentClose ++ (M ++ (weatherEnd ++ D))))).take
      (startPw.length + (city.length + (commentClose.length + M.length))) =
      startPw ++ (city ++ (commentClose ++ M)) := by
    rw [take_app, take_app, take_app]
    rw [List.take_left]
  have htakeSecEnd : (startPw ++ (city ++ (commentClose ++ (M ++ (weatherEnd ++ D))))).take
      (startPw.length + (city.length + (commentClose.length + (M.length + weatherEnd.length)))) =
      startPw ++ (city ++ (commentClose ++ (M ++ weatherEnd))) := by
    rw [take_app, take_app, take_app, take_app]
    rw [List.take_left]
  simp only [weatherSectionParse, h1, hdropA, hEnd, hdropC, hClose, htakeCity,
    e1, e2, htakeSec, htakeSecEnd]

end WeatherParseTheory

namespace Claims

/-- C3 (amended): for every percent and a 4-glyph set, `make_graph` follows
the §4.2 algorithm with `step = 1/4` (not the claimed `1/3`): proportion is
`percent/100*25` clamped to 25, `full_count = floor(proportion + step/2)`
(`= proportion + 0.125`), `remainder = floor((proportion - full_count)/step
+ 0.5)` (`= (proportion - full_count)*4 + 0.5`), glyph `blocks[remainder]`
appended when `0 < remainder < 4`, empty-glyph padding to 25 cells. -/
theorem c3_make_graph_follows_quarter_step (blocks : List Char) (percent : ℚ)
    (hlen : blocks.length = 4) :
    makeGraph blocks percent = specGraphQuarter blocks percent := by
  have hdiv : ∀ x : ℚ, ⌊x / (1 / 4) + 1 / 2⌋ = ⌊x * 4 + 1 / 2⌋ := by
    intro x
    have hx : x / (1 / 4) = x * 4 := by ring
    rw [hx]
  simp only [specGraphQuarter, makeGraph, graphFullBlocks, graphRemainder,
    graphProportion, rustAsUsize, graphWidth, hlen]
  rw [if_neg (by omega)]
  norm_num
  simp only [hdiv]

/-- Witness for C3's amended theorem at the concrete glyph set `"0123"` and
`percent = 3`. -/
theorem c3_witness :
    "0123".data.length = 4 ∧
      makeGraph "0123".data 3 = specGraphQuarter "0123".data 3 :=
  ⟨by decide, c3_make_graph_follows_quarter_step "0123".data 3 (by decide)⟩

/-- C3 counterexample: at `percent = 3` (a value whose `f64` pipeline stays
far from every rounding boundary) the code's bar and the bar computed by the
specification's stated `step = 1/3` algorithm differ: the code emits the
full glyph `'3'`, the spec formula the transitional glyph `'2'`. -/
theorem c3_counterexample :
    makeGraph "0123".data 3 ≠ specGraphThird "0123".data 3 := by
  have hcode : makeGraph "0123".data 3 = '3' :: List.replicate 24 '0' := by
    have hp : graphProportion 3 = 3 / 4 := by
      unfold graphProportion graphWidth
      norm_num
    have hf : graphFullBlocks 3 = 0 := by
      unfold graphFullBlocks rustAsUsize
      rw [hp]
      norm_num
    have hr : graphRemainder 3 = 3 := by
      unfold graphRemainder rustAsUsize
      rw [hp, hf]
      norm_num
      decide
    simp only [makeGraph]
    rw [if_neg (by decide)]
    simp only [hf, hr]
    decide
  have hspec : specGraphThird "0123".data 3 = '2' :: List.replicate 24 '0' := by
    simp only [specGraphThird]
    have hmin : min ((3:ℚ) / 100 * 25) 25 = 3 / 4 := by norm_num
    rw [hmin]
    have hf : (⌊(3:ℚ) / 4 + 1 / 3 / 2⌋).toNat = 0 := by norm_num
    rw [hf]
    have hr : (⌊((3:ℚ) / 4 - ((0:ℕ) : ℚ)) / (1 / 3) + 0.5⌋).toNat = 2 := by
      norm_num
      decide
    rw [hr]
    decide
  rw [hcode, hspec]
  decide

/-- C7 (amended): `percent = 0` renders 25 empty glyphs and `percent = 100`
renders 25 full glyphs; `percent = 50` renders 12 full glyphs — the
half-transition glyph and 12 empty glyphs follow — and `floor(12.5 + step/2)`
with the §4.2 `step = 1/3` is 12, not the 13 the specification states. -/
theorem c7_boundary_bars (b0 b1 b2 b3 : Char) :
    makeGraph [b0, b1, b2, b3] 0 = List.replicate 25 b0 ∧
      makeGraph [b0, b1, b2, b3] 100 = List.replicate 25 b3 ∧
      makeGraph [b0, b1, b2, b3] 50 =
        List.replicate 12 b3 ++ [b2] ++ List.replicate 12 b0 ∧
      (⌊(12.5 : ℚ) + (1 / 3) / 2⌋).toNat = 12 := by
  refine ⟨?_, ?_, ?_, by norm_num; decide⟩
  · have hp : graphProportion 0 = 0 := by
      unfold graphProportion graphWidth
      norm_num
    have hf : graphFullBlocks 0 = 0 := by
      unfold graphFullBlocks rustAsUsize
      rw [hp]
      norm_num
    have hr : graphRemainder 0 = 0 := by
      unfold graphRemainder rustAsUsize
      rw [hp, hf]
      norm_num
    simp only [makeGraph]
    rw [if_neg (by simp)]
    simp only [hf, hr]
    simp [graphWidth, List.getD]
  · have hp : graphProportion 100 = 25 := by
      unfold graphProportion graphWidth
      norm_num
    have hf : graphFullBlocks 100 = 25 := by
      unfold graphFullBlocks rustAsUsize
      rw [hp]
      norm_num
      decide
    have hr : graphRemainder 100 = 0 := by
      unfold graphRemainder rustAsUsize
      rw [hp, hf]
      norm_num
    simp only [makeGraph]
    rw [if_neg (by simp)]
    simp only [hf, hr]
    simp [graphWidth, List.getD]
  · have hp : graphProportion 50 = 25 / 2 := by
      unfold graphProportion graphWidth
      norm_num
    have hf : graphFullBlocks 50 = 12 := by
      unfold graphFullBlocks rustAsUsize
      rw [hp]
      norm_num
      decide
    have hr : graphRemainder 50 = 2 := by
      unfold graphRemainder rustAsUsize
      rw [hp, hf]
      norm_num
      decide
    simp only [makeGraph]
    rw [if_neg (by simp)]
    simp only [hf, hr]
    simp [graphWidth, List.getD, List.append_assoc]

/-- C7 counterexample: the bar at `percent = 50` contains 12 full glyphs,
refuting the claim's assertion that the §4.2 formula gives 13 there. -/
theorem c7_counterexample :
    ¬ ((makeGraph "0123".data 50).count '3' = 13) := by
  have hp : graphProportion 50 = 25 / 2 := by
    unfold graphProportion graphWidth
    norm_num
  have hf : graphFullBlocks 50 = 12 := by
    unfold graphFullBlocks rustAsUsize
    rw [hp]
    norm_num
    decide
  have hr : graphRemainder 50 = 2 := by
    unfold graphRemainder rustAsUsize
    rw [hp, hf]
    norm_num
    decide
  have hcode : makeGraph "0123".data 50 =
      List.replicate 12 '3' ++ ['2'] ++ List.replicate 12 '0' := by
    simp only [makeGraph]
    rw [if_neg (by decide)]
    simp only [hf, hr]
    decide
  rw [hcode]
  decide

/-- C10: for a 4-glyph set and any percent in `[0, 100]`, the rendered bar is
exactly 25 characters, and the full-glyph count never exceeds 25 (so the
final empty-glyph padding `25 - len` never underflows and at most one
transitional glyph fits). -/
theorem c10_bar_width_invariant (blocks : List Char) (percent : ℚ)
    (hlen : blocks.length = 4) (h0 : 0 ≤ percent) (h100 : percent ≤ 100) :
    (makeGraph blocks percent).length = 25 ∧ graphFullBlocks percent ≤ 25 := by
  have hp25 : graphProportion percent ≤ 25 := by
    unfold graphProportion graphWidth
    push_cast
    exact min_le_right _ _
  have hfloorle : ⌊graphProportion percent + 0.125⌋ ≤ 25 := by
    calc ⌊graphProportion percent + 0.125⌋ ≤ ⌊(25 : ℚ) + 0.125⌋ :=
        Int.floor_le_floor (by linarith)
      _ = 25 := by norm_num
  have hfull25 : graphFullBlocks percent ≤ 25 := by
    unfold graphFullBlocks rustAsUsize
    omega
  refine ⟨?_, hfull25⟩
  by_cases hF : graphFullBlocks percent = 25
  · -- a saturated bar leaves no room: the remainder rounds to zero
    have hfloor25 : ⌊graphProportion percent + 0.125⌋ = 25 := by
      unfold graphFullBlocks rustAsUsize at hF
      omega
    have hge : (25 : ℚ) ≤ graphProportion percent + 0.125 := by
      have := Int.le_floor.mp (le_of_eq hfloor25.symm)
      exact_mod_cast this
    have hrem : graphRemainder percent = 0 := by
      unfold graphRemainder rustAsUsize
      rw [hF]
      have hz : ⌊(graphProportion percent - ((25 : ℕ) : ℚ)) * 4 + 0.5⌋ = 0 := by
        apply Int.floor_eq_zero_iff.mpr
        constructor
        · push_cast
          linarith
        · push_cast
          linarith
      rw [hz]
      rfl
    simp only [makeGraph]
    rw [if_neg (by omega)]
    simp only [hF, hrem]
    rw [if_neg (by simp)]
    simp [graphWidth]
  · have hF24 : graphFullBlocks percent ≤ 24 := by omega
    simp only [makeGraph]
    rw [if_neg (by omega)]
    by_cases hc : 0 < graphRemainder percent ∧ graphRemainder percent < blocks.length
    · rw [if_pos hc]
      simp only [List.length_append, List.length_replicate, List.length_cons,
        List.length_nil, graphWidth]
      omega
    · rw [if_neg hc]
      simp only [List.length_append, List.length_replicate, graphWidth]
      omega

/-- Witness for C10 at `percent = 37` with the glyph set `"0123"`. -/
theorem c10_witness :
    ("0123".data.length = 4 ∧ (0 : ℚ) ≤ 37 ∧ (37 : ℚ) ≤ 100) ∧
      (makeGraph "0123".data 37).length = 25 ∧ graphFullBlocks 37 ≤ 25 :=
  ⟨⟨by decide, by norm_num, by norm_num⟩,
    c10_bar_width_invariant "0123".data 37 (by decide) (by norm_num) (by norm_num)⟩

/-- C6 (amended): the weather service's `fetch_weather` honours the cache
contract — a fresh entry (`now - fetched_at < freshness window`) is returned
without invoking the fetch and the entry survives unchanged, while a stale
or missing entry leads to a fetch whose success overwrites the entry
wholesale with `(new value, now)`.  (The wakatime service's `fetch_stats`
does not: see the counterexample.) -/
theorem c6_weather_cache_contract {α : Type} (info s : α) (t nowRead cacheDur : Int)
    (city : Str) (fetchRes : Except WError α) (nowWrite : Int)
    (cacheStale : Option (α × Int))
    (hfresh : nowRead - t < cacheDur)
    (hcity : ¬ trim city = [])
    (hstale : ∀ i tt, cacheStale = some (i, tt) → ¬ nowRead - tt < cacheDur)
    (hok : fetchRes = .ok s) :
    weatherFetchModel (some (info, t)) nowRead cacheDur city fetchRes nowWrite =
        (.ok info, some (info, t), false) ∧
      weatherFetchModel cacheStale nowRead cacheDur city fetchRes nowWrite =
        (.ok s, some (s, nowWrite), true) := by
  subst hok
  constructor
  · simp only [weatherFetchModel]
    rw [if_pos hfresh]
  · cases hcs : cacheStale with
    | none =>
      simp only [weatherFetchModel, weatherFetchMiss]
      rw [if_neg hcity]
    | some p =>
      obtain ⟨i, tt⟩ := p
      simp only [weatherFetchModel, weatherFetchMiss]
      rw [if_neg (hstale i tt hcs), if_neg hcity]

/-- Witness for C6's amended theorem at concrete values. -/
theorem c6_witness :
    (((0 : Int) - 0 < 300) ∧ ¬ trim "Seoul".data = [] ∧
        (∀ i tt, (none : Option (Nat × Int)) = some (i, tt) → ¬ (0 : Int) - tt < 300)) ∧
      weatherFetchModel (some ((7 : Nat), (0 : Int))) 0 300 "Seoul".data
          (.ok 7) 5 = (.ok 7, some (7, 0), false) ∧
      weatherFetchModel (none : Option (Nat × Int)) 0 300 "Seoul".data
          (.ok 7) 5 = (.ok 7, some (7, 5), true) :=
  ⟨⟨by decide, by decide, fun i tt h => by cases h⟩,
    c6_weather_cache_contract 7 7 0 0 300 "Seoul".data (.ok 7) 5 none
      (by decide) (by decide) (fun i tt h => by cases h) rfl⟩

/-- C6 counterexample: `WakaTimeService::fetch_stats` invokes the fetch even
though a cache entry exists and is fresh by any reasonable window
(`now - fetched_at = 0`), and it returns the freshly fetched value rather
than the cached one — the `get_or_fetch` read path of the claim does not
exist on this service. -/
theorem c6_counterexample :
    wakaFetchStatsModel (some ((7 : Nat), (0 : Int))) (.ok 8) 0 =
        (.ok 8, some (8, 0), true) ∧
      ((0 : Int) - 0 < 300) := by
  constructor
  · rfl
  · decide

/-- C4 (amended): a document with no weather start marker makes the weather
cycle fail with the `WeatherSectionNotFound` error (not a sentinel success),
`ServiceRunner::run` swallows that error, and no filesystem operation
happens. -/
theorem c4_missing_section_is_error (doc weatherText : Str)
    (h : findSub startPw doc = none) :
    weatherRunModel doc weatherText = .error .weatherSectionNotFound ∧
      serviceRunnerWeatherOps doc weatherText = [] := by
  have hparse : weatherSectionParse doc = .error .weatherSectionNotFound := by
    unfold weatherSectionParse
    rw [h]
  constructor
  · unfold weatherRunModel
    rw [hparse]
  · unfold serviceRunnerWeatherOps weatherRunModel
    rw [hparse]

/-- Witness for C4's amended theorem on a marker-free document. -/
theorem c4_witness :
    findSub startPw "# Hello\nNo section here.\n".data = none ∧
      weatherRunModel "# Hello\nNo section here.\n".data "W".data =
        .error .weatherSectionNotFound ∧
      serviceRunnerWeatherOps "# Hello\nNo section here.\n".data "W".data = [] :=
  ⟨by decide,
    c4_missing_section_is_error "# Hello\nNo section here.\n".data "W".data (by decide)⟩

/-- C4 counterexample: on a section-free document the weather cycle's result
is an error value, not the claimed "skipped, no section" success outcome. -/
theorem c4_counterexample :
    weatherRunModel "just text\n".data "W".data = .error .weatherSectionNotFound := by
  rfl

/-- C8: a start marker that declares a target whose identifier trims to
empty (e.g. `<!--START_SECTION:weather:-->`) makes the locate fail with the
missing-target-identifier error (`MissingCityInSection` in this code). -/
theorem c8_empty_target_fails (A city M D : Str)
    (hStart : findSub startPw (A ++ startPw) = some A.length)
    (hEnd : findSub weatherEnd
        (startPw ++ (city ++ (commentClose ++ (M ++ (weatherEnd ++ D))))) =
      some (startPw.length + (city.length + (commentClose.length + M.length))))
    (hClose : findSub commentClose
        (city ++ (commentClose ++ (M ++ (weatherEnd ++ D)))) =
      some city.length)
    (hEmpty : trim city = []) :
    weatherSectionParse
        (A ++ (startPw ++ (city ++ (commentClose ++ (M ++ (weatherEnd ++ D)))))) =
      .error .missingCityInSection := by
  rw [weatherParse_structured A city M D hStart hEnd hClose, if_pos hEmpty]

/-- Witness for C8 on `<!--START_SECTION:weather:-->\nx\n<!--END_SECTION:weather-->\n`
with empty target text. -/
theorem c8_witness :
    (findSub startPw ("Intro\n".data ++ startPw) = some "Intro\n".data.length ∧
      findSub weatherEnd
          (startPw ++ (([] : Str) ++ (commentClose ++ ("\nx\n".data ++ (weatherEnd ++ "\n".data))))) =
        some (startPw.length + (List.length ([] : Str) + (commentClose.length + "\nx\n".data.length))) ∧
      findSub commentClose
          (([] : Str) ++ (commentClose ++ ("\nx\n".data ++ (weatherEnd ++ "\n".data)))) =
        some (List.length ([] : Str)) ∧
      trim ([] : Str) = []) ∧
    weatherSectionParse
        ("Intro\n".data ++ (startPw ++ (([] : Str) ++ (commentClose ++
          ("\nx\n".data ++ (weatherEnd ++ "\n".data)))))) =
      .error .missingCityInSection :=
  ⟨⟨by decide, by decide, by decide, by decide⟩,
    c8_empty_target_fails "Intro\n".data ([] : Str) "\nx\n".data "\n".data
      (by decide) (by decide) (by decide) (by decide)⟩

/-- C9 (amended): on the canonical document shape, `WeatherSection::parse`
succeeds for EVERY in-section text `M` — a malformed embedded timestamp is
non-fatal — and the reported previous update is computed by
`parse_last_update` from the `[start_pos, end_pos)` substring only, with the
fixed `YYYY-MM-DD HH:MM:SS` format; parse failure of the timestamp yields
`none`.  (The wakatime service's `parse_last_update`, by contrast, scans the
whole document: see the counterexample.) -/
theorem c9_last_update_section_scoped (A city M D : Str)
    (hStart : findSub startPw (A ++ startPw) = some A.length)
    (hEnd : findSub weatherEnd
        (startPw ++ (city ++ (commentClose ++ (M ++ (weatherEnd ++ D))))) =
      some (startPw.length + (city.length + (commentClose.length + M.length))))
    (hClose : findSub commentClose
        (city ++ (commentClose ++ (M ++ (weatherEnd ++ D)))) =
      some city.length)
    (hCity : ¬ trim city = []) :
    weatherSectionParse
        (A ++ (startPw ++ (city ++ (commentClose ++ (M ++ (weatherEnd ++ D)))))) =
      .ok ⟨trim city,
        weatherParseLastUpd (startPw ++ (city ++ (commentClose ++ M))),
        A.length,
        A.length + (startPw.length + (city.length + (commentClose.length + M.length))),
        startPw ++ (city ++ (commentClose ++ (M ++ weatherEnd)))⟩ := by
  rw [weatherParse_structured A city M D hStart hEnd hClose, if_neg hCity]

/-- Witness for C9 with a malformed embedded timestamp: locate still
succeeds and the timestamp parses to `none`. -/
theorem c9_witness :
    (findSub startPw ("".data ++ startPw) = some "".data.length ∧
      findSub weatherEnd
          (startPw ++ ("Seoul".data ++ (commentClose ++
            ("\n<!--LAST_WEATHER_UPDATE:not-a-date-->\n".data ++ (weatherEnd ++ "".data))))) =
        some (startPw.length + ("Seoul".data.length + (commentClose.length +
          "\n<!--LAST_WEATHER_UPDATE:not-a-date-->\n".data.length))) ∧
      findSub commentClose
          ("Seoul".data ++ (commentClose ++
            ("\n<!--LAST_WEATHER_UPDATE:not-a-date-->\n".data ++ (weatherEnd ++ "".data)))) =
        some "Seoul".data.length ∧
      ¬ trim "Seoul".data = []) ∧
    weatherSectionParse
        ("".data ++ (startPw ++ ("Seoul".data ++ (commentClose ++
          ("\n<!--LAST_WEATHER_UPDATE:not-a-date-->\n".data ++ (weatherEnd ++ "".data)))))) =
      .ok ⟨trim "Seoul".data,
        weatherParseLastUpd (startPw ++ ("Seoul".data ++ (commentClose ++
          "\n<!--LAST_WEATHER_UPDATE:not-a-date-->\n".data))),
        "".data.length,
        "".data.length + (startPw.length + ("Seoul".data.length + (commentClose.length +
          "\n<!--LAST_WEATHER_UPDATE:not-a-date-->\n".data.length))),
        startPw ++ ("Seoul".data ++ (commentClose ++
          ("\n<!--LAST_WEATHER_UPDATE:not-a-date-->\n".data ++ weatherEnd)))⟩ ∧
    weatherParseLastUpd (startPw ++ ("Seoul".data ++ (commentClose ++
      "\n<!--LAST_WEATHER_UPDATE:not-a-date-->\n".data))) = none :=
  ⟨⟨by decide, by decide, by decide, by decide⟩,
    c9_last_update_section_scoped "".data "Seoul".data
      "\n<!--LAST_WEATHER_UPDATE:not-a-date-->\n".data "".data
      (by decide) (by decide) (by decide) (by decide),
    by decide⟩

/-- C9 counterexample: the wakatime service finds a "previous update"
timestamp that sits entirely BEFORE the section's start marker — the
between-markers substring contains no timestamp marker at all — refuting
"searched only within the substring between the start and end markers". -/
theorem c9_counterexample :
    (wakaUpdateReadme "waka".data "rust".data
        "<!--LAST_WAKA_UPDATE:2024-01-02 03:04:05-->\n<!--START_SECTION:waka-->\nx\n<!--END_SECTION:waka-->".data
        "c".data "2024-05-06 07:08:09".data).lastUpd =
      some ⟨2024, 1, 2, 3, 4, 5⟩ ∧
    containsSub lastWakaUpd
        ((statsExtractSection (mkStartMarker "waka".data) (mkEndMarker "waka".data)
          "<!--LAST_WAKA_UPDATE:2024-01-02 03:04:05-->\n<!--START_SECTION:waka-->\nx\n<!--END_SECTION:waka-->".data).getD []) =
      false := by
  constructor
  · decide
  · decide

set_option maxHeartbeats 1600000 in
/-- C2 (amended): `StatsUpdater::update` is idempotent — whatever a first
update with rendered content `C` did to a canonical document, a second
update with the same content reports `was_updated = false`, performs no
write, and leaves the document byte-for-byte unchanged; the change decision
normalises both sides (timestamp-marker and comment-like lines dropped at
extraction, code-fence and blank lines dropped and lines trimmed by
`contents_equal`).  The wakatime SERVICE's `update_readme`, whose change
decision is raw byte equality against a freshly timestamped replacement, is
not idempotent: see the counterexample. -/
theorem c2_stats_update_idempotent (startM endM A B D C ts1 ts2 : Str)
    (hStart : findSub startM (A ++ startM) = some A.length)
    (hB : B ≠ [])
    (hNoT : containsSub startM (B ++ (endM ++ D)) = false)
    (hEndT : findSub endM (B ++ (endM ++ D)) = some B.length)
    (hNoT1 : containsSub startM (freshBody ts1 C ++ (endM ++ D)) = false)
    (hEnd1 : findSub endM (freshBody ts1 C ++ (endM ++ D)) =
      some (freshBody ts1 C).length)
    (htsn : '\n' ∉ ts1) (htsr : '\r' ∉ ts1)
    (hCr : '\r' ∉ C) (hCtrim : trim C = C)
    (hClines : ∀ l ∈ C.splitOn '\n', trim l = l ∧ l ≠ [] ∧
      commentOpenM.isPrefixOf l = false ∧ commentClose.isSuffixOf l = false) :
    ∀ d1 b ops,
      statsUpdate startM endM (A ++ (startM ++ (B ++ (endM ++ D)))) C ts1 =
        some (d1, b, ops) →
      statsUpdate startM endM d1 C ts2 = some (d1, false, []) := by
  intro d1 b ops h1
  have hsec := statsExtractSection_structured startM endM A B D hStart hNoT hEndT
  cases hEq : contentsEqual
      (trim (trim (List.intercalate ['\n'] ((rustLines B).filter keepLine))))
      (trim C) with
  | true =>
    have h1' : statsUpdate startM endM (A ++ (startM ++ (B ++ (endM ++ D)))) C ts1 =
        some (A ++ (startM ++ (B ++ (endM ++ D))), false, []) := by
      simp only [statsUpdate, statsExtractContent, hsec, hEq, if_true]
    rw [h1'] at h1
    simp only [Option.some.injEq, Prod.mk.injEq] at h1
    obtain ⟨h1d, h1b, h1ops⟩ := h1
    subst h1d
    simp only [statsUpdate, statsExtractContent, hsec, hEq, if_true]
  | false =>
    have hrepl := replaceSectionStats_structured startM endM A B D
      (statsNewSection startM endM C ts1) hStart hB hEndT
    have hd1 : A ++ (statsNewSection startM endM C ts1 ++ D) =
        A ++ (startM ++ (freshBody ts1 C ++ (endM ++ D))) := by
      rw [statsNewSection_shape]
      simp [List.append_assoc]
    have h1' : statsUpdate startM endM (A ++ (startM ++ (B ++ (endM ++ D)))) C ts1 =
        some (A ++ (startM ++ (freshBody ts1 C ++ (endM ++ D))), true,
          [FsOp.write readmePath (A ++ (startM ++ (freshBody ts1 C ++ (endM ++ D))))]) := by
      simp only [statsUpdate, statsExtractContent, hsec, hEq, Bool.false_eq_true,
        if_false, hrepl, hd1]
    rw [h1'] at h1
    simp only [Option.some.injEq, Prod.mk.injEq] at h1
    obtain ⟨h1d, h1b, h1ops⟩ := h1
    subst h1d
    exact statsUpdate_on_fresh startM endM A D C ts1 ts2 hStart hNoT1 hEnd1
      htsn htsr hCr hCtrim hClines

set_option maxRecDepth 40000 in
set_option maxHeartbeats 1600000 in
/-- Witness for C2's amended theorem at a concrete document and content. -/
theorem c2_witness :
    (findSub (mkStartMarker "waka".data) ("Top\n".data ++ mkStartMarker "waka".data) =
        some "Top\n".data.length ∧
      "\nold\n".data ≠ [] ∧
      containsSub (mkStartMarker "waka".data)
          ("\nold\n".data ++ (mkEndMarker "waka".data ++ "\nB".data)) = false ∧
      findSub (mkEndMarker "waka".data)
          ("\nold\n".data ++ (mkEndMarker "waka".data ++ "\nB".data)) =
        some "\nold\n".data.length ∧
      containsSub (mkStartMarker "waka".data)
          (freshBody "2025-01-01 00:00:00".data "Lang 10 hrs".data ++
            (mkEndMarker "waka".data ++ "\nB".data)) = false ∧
      findSub (mkEndMarker "waka".data)
          (freshBody "2025-01-01 00:00:00".data "Lang 10 hrs".data ++
            (mkEndMarker "waka".data ++ "\nB".data)) =
        some (freshBody "2025-01-01 00:00:00".data "Lang 10 hrs".data).length ∧
      statsUpdate (mkStartMarker "waka".data) (mkEndMarker "waka".data)
          ("Top\n".data ++ (mkStartMarker "waka".data ++ ("\nold\n".data ++
            (mkEndMarker "waka".data ++ "\nB".data))))
          "Lang 10 hrs".data "2025-01-01 00:00:00".data =
        some ("Top\n<!--START_SECTION:waka-->\n<!--LAST_WAKA_UPDATE:2025-01-01 00:00:00-->\nLang 10 hrs\n<!--END_SECTION:waka-->\nB".data,
          true,
          [FsOp.write readmePath
            "Top\n<!--START_SECTION:waka-->\n<!--LAST_WAKA_UPDATE:2025-01-01 00:00:00-->\nLang 10 hrs\n<!--END_SECTION:waka-->\nB".data])) ∧
    statsUpdate (mkStartMarker "waka".data) (mkEndMarker "waka".data)
        "Top\n<!--START_SECTION:waka-->\n<!--LAST_WAKA_UPDATE:2025-01-01 00:00:00-->\nLang 10 hrs\n<!--END_SECTION:waka-->\nB".data
        "Lang 10 hrs".data "2025-01-02 00:00:00".data =
      some ("Top\n<!--START_SECTION:waka-->\n<!--LAST_WAKA_UPDATE:2025-01-01 00:00:00-->\nLang 10 hrs\n<!--END_SECTION:waka-->\nB".data,
        false, []) :=
  ⟨⟨by decide, by decide, by decide, by decide, by decide, by decide, by decide⟩,
    c2_stats_update_idempotent (mkStartMarker "waka".data) (mkEndMarker "waka".data)
      "Top\n".data "\nold\n".data "\nB".data "Lang 10 hrs".data
      "2025-01-01 00:00:00".data "2025-01-02 00:00:00".data
      (by decide) (by decide) (by decide) (by decide) (by decide) (by decide)
      (by decide) (by decide) (by decide) (by decide) (by decide)
      "Top\n<!--START_SECTION:waka-->\n<!--LAST_WAKA_UPDATE:2025-01-01 00:00:00-->\nLang 10 hrs\n<!--END_SECTION:waka-->\nB".data
      true
      [FsOp.write readmePath
        "Top\n<!--START_SECTION:waka-->\n<!--LAST_WAKA_UPDATE:2025-01-01 00:00:00-->\nLang 10 hrs\n<!--END_SECTION:waka-->\nB".data]
      (by decide)⟩

set_option maxRecDepth 40000 in
set_option maxHeartbeats 1600000 in
/-- C2 counterexample: the wakatime SERVICE path is not idempotent — running
`update_readme` twice with the same content but a later timestamp makes the
second call report `was_updated = true` and perform a (direct) write,
because its change decision is raw equality of the whole document including
the freshly embedded timestamp. -/
theorem c2_counterexample :
    (wakaUpdateReadme "waka".data "rust".data
        (wakaUpdateReadme "waka".data "rust".data
          "A\n<!--START_SECTION:waka-->\nold\n<!--END_SECTION:waka-->\nB".data
          "st".data "2025-01-01 00:00:00".data).doc
        "st".data "2025-01-01 00:00:01".data).wasUpdated = true ∧
    (wakaUpdateReadme "waka".data "rust".data
        (wakaUpdateReadme "waka".data "rust".data
          "A\n<!--START_SECTION:waka-->\nold\n<!--END_SECTION:waka-->\nB".data
          "st".data "2025-01-01 00:00:00".data).doc
        "st".data "2025-01-01 00:00:01".data).ops ≠ [] := by
  constructor
  · decide
  · decide

/-- C1 (code bug, evaluated at the failing input): on a well-formed document
the weather rewrite splices `start_marker + newline + timestamp marker +
newline + body` WITHOUT re-appending `newline + end_marker` — the suffix
begins after the end marker, so `<!--END_SECTION:weather-->` is deleted from
the document (and the service's own next run would fail with
`WeatherSectionNotFound`).  Text before the start marker and after the end
marker is preserved. -/
theorem c1_end_marker_deleted :
    weatherRunModel
        "# Hi\n<!--START_SECTION:weather:Seoul-->\nold\n<!--END_SECTION:weather-->\nTail".data
        (weatherFormatReadme "2025-06-07 08:09:10".data "Sunny".data) =
      .ok ("# Hi\n<!--START_SECTION:weather:Seoul-->\n<!--LAST_WEATHER_UPDATE:2025-06-07 08:09:10-->\nSunny\nTail".data,
        [FsOp.write "README.tmp".data
          "# Hi\n<!--START_SECTION:weather:Seoul-->\n<!--LAST_WEATHER_UPDATE:2025-06-07 08:09:10-->\nSunny\nTail".data,
         FsOp.rename "README.tmp".data "README.md".data]) ∧
    containsSub weatherEnd
        "# Hi\n<!--START_SECTION:weather:Seoul-->\n<!--LAST_WEATHER_UPDATE:2025-06-07 08:09:10-->\nSunny\nTail".data =
      false :=
  ⟨rfl, rfl⟩

/-- C5 (amended): every write of the WEATHER cycle goes through the
temporary sibling (extension replaced by `tmp`) followed by a rename over
the original path; the weather cycle never writes the README path directly.
(The wakatime cycle does not: see the counterexample.) -/
theorem c5_weather_write_is_atomic (doc wt : Str) (sec : WSection)
    (h : weatherSectionParse doc = .ok sec) :
    weatherRunModel doc wt = .ok (weatherUpdateReadme doc sec wt,
        [FsOp.write (withExtTmp readmePath) (weatherUpdateReadme doc sec wt),
         FsOp.rename (withExtTmp readmePath) readmePath]) ∧
      ∀ c, FsOp.write readmePath c ∉
        [FsOp.write (withExtTmp readmePath) (weatherUpdateReadme doc sec wt),
         FsOp.rename (withExtTmp readmePath) readmePath] := by
  constructor
  · simp only [weatherRunModel, h]
  · intro c hmem
    have hne : readmePath ≠ withExtTmp readmePath := by decide
    rcases List.mem_cons.mp hmem with heq | hmem2
    · injection heq with h1 h2
      exact hne h1
    · rcases List.mem_cons.mp hmem2 with heq | h3
      · exact FsOp.noConfusion heq
      · exact absurd h3 (List.not_mem_nil _)

/-- Witness for C5's amended theorem on a concrete parsed document. -/
theorem c5_witness :
    weatherSectionParse
        "# Hi\n<!--START_SECTION:weather:Seoul-->\nold\n<!--END_SECTION:weather-->\nTail".data =
      .ok ⟨"Seoul".data, none, 5, 44,
        "<!--START_SECTION:weather:Seoul-->\nold\n<!--END_SECTION:weather-->".data⟩ ∧
    weatherRunModel
        "# Hi\n<!--START_SECTION:weather:Seoul-->\nold\n<!--END_SECTION:weather-->\nTail".data
        "W".data =
      .ok (weatherUpdateReadme
          "# Hi\n<!--START_SECTION:weather:Seoul-->\nold\n<!--END_SECTION:weather-->\nTail".data
          ⟨"Seoul".data, none, 5, 44,
            "<!--START_SECTION:weather:Seoul-->\nold\n<!--END_SECTION:weather-->".data⟩ "W".data,
        [FsOp.write (withExtTmp readmePath)
          (weatherUpdateReadme
            "# Hi\n<!--START_SECTION:weather:Seoul-->\nold\n<!--END_SECTION:weather-->\nTail".data
            ⟨"Seoul".data, none, 5, 44,
              "<!--START_SECTION:weather:Seoul-->\nold\n<!--END_SECTION:weather-->".data⟩ "W".data),
         FsOp.rename (withExtTmp readmePath) readmePath]) :=
  ⟨by rfl,
    (c5_weather_write_is_atomic
      "# Hi\n<!--START_SECTION:weather:Seoul-->\nold\n<!--END_SECTION:weather-->\nTail".data
      "W".data
      ⟨"Seoul".data, none, 5, 44,
        "<!--START_SECTION:weather:Seoul-->\nold\n<!--END_SECTION:weather-->".data⟩
      (by rfl)).1⟩

/-- C5 counterexample: the wakatime README update performs a single DIRECT
`fs::write` to the original README path — no temporary file, no rename —
refuting "every file write goes through a temp-file-then-rename sequence". -/
theorem c5_counterexample :
    (wakaUpdateReadme "waka".data "rust".data
        "A\n<!--START_SECTION:waka-->\nold\n<!--END_SECTION:waka-->\nB".data
        "new".data "2025-01-01 00:00:00".data).ops =
      [FsOp.write readmePath
        (wakaUpdateReadme "waka".data "rust".data
          "A\n<!--START_SECTION:waka-->\nold\n<!--END_SECTION:waka-->\nB".data
          "new".data "2025-01-01 00:00:00".data).doc] ∧
    (wakaUpdateReadme "waka".data "rust".data
        "A\n<!--START_SECTION:waka-->\nold\n<!--END_SECTION:waka-->\nB".data
        "new".data "2025-01-01 00:00:00".data).wasUpdated = true ∧
    readmePath ≠ withExtTmp readmePath :=
  ⟨rfl, rfl, by decide⟩

end Claims
